import Mathlib

/-!
Verification of the paired image-to-image translation data pipeline.

The development shallowly embeds the three data modules:

* `transforms.py` — the paired `build_transform` closure and `normalize_photo`.
  Torchvision primitives (`resize`, `crop`, `hflip`, `to_tensor` and the
  elementwise tensor scalar operations) are pure deterministic functions, so
  they are abstracted as a structure of operations `TvOps`; the global
  random generators (`random.random`, `torch.randint`) are threaded as an
  explicit stream of raw draws.  A dimension-level instantiation tracks the
  `(height, width)` behaviour of every primitive exactly as torchvision
  computes it, and an exact-rational tensor instantiation gives the
  elementwise content of `normalize_photo` (rationals stand in for floats).
* `prepare_cityscapes.py` — `split_and_save`, `collect_files`,
  `write_split_file`, `process_dataset` over an explicit file-system state
  mapping path strings to in-memory images.
* `dataset.py` — `CityscapesDataset.__getitem__` with Python list-indexing
  semantics.
-/

namespace I2I

/-- Spatial dimensions of an image, `(height, width)`, in torchvision order. -/
abbrev Dims := ℕ × ℕ

/-- An explicit stream of raw random draws, standing for the Python global
random generators (`random.random`, `torch.randint`).  Every primitive that
draws randomness consumes numbers from the front of the list. -/
abbrev Rng := List ℕ

/-- Pop the next raw draw (`0` when the stream is exhausted). -/
def Rng.next : Rng → ℕ × Rng
  | [] => (0, [])
  | d :: r => (d, r)

/-- Model of `torch.randint(0, hi)`: a raw draw reduced into the range `[0, hi)`. -/
def randint (hi : ℕ) (draw : ℕ) : ℕ := draw % hi

/-- The torchvision primitives used by `build_transform`, abstracted over the
image and tensor representations: `F.resize`, `F.get_dimensions` (as used by
`RandomCrop.get_params`), `F.crop`, `F.hflip`, `F.to_tensor`, and the
elementwise broadcast scalar subtraction `t - c` and division `t / c` on
tensors.  Each is a pure deterministic function, as in torchvision. -/
structure TvOps (Img Tensor : Type) where
  resize : Img → ℕ → Img
  dims : Img → Dims
  crop : Img → ℕ → ℕ → ℕ → ℕ → Img
  hflip : Img → Img
  to_tensor : Img → Tensor
  tsub : Tensor → ℚ → Tensor
  tdiv : Tensor → ℚ → Tensor

/-- Model of `transforms.RandomCrop.get_params(img, (th, tw))`: fails when the image is
smaller than the requested crop; returns the unshifted full-size crop when the
sizes agree exactly; otherwise draws `i ∈ [0, h - th]` and `j ∈ [0, w - tw]`
with `torch.randint`. -/
def get_params {Img Tensor : Type} (ops : TvOps Img Tensor) (img : Img)
    (th tw : ℕ) (rng : Rng) : Except String ((ℕ × ℕ × ℕ × ℕ) × Rng) :=
  let hw := ops.dims img
  if hw.1 < th ∨ hw.2 < tw then
    .error "Required crop size is larger than input image size"
  else if hw.2 = tw ∧ hw.1 = th then
    .ok ((0, 0, hw.1, hw.2), rng)
  else
    let d1 := rng.next
    let d2 := d1.2.next
    .ok ((randint (hw.1 - th + 1) d1.1, randint (hw.2 - tw + 1) d2.1, th, tw), d2.2)

/-- Model of `_random_crop_pair(label, photo, size)`: draws the crop parameters from the
photo and applies the same crop to both images. -/
def _random_crop_pair {Img Tensor : Type} (ops : TvOps Img Tensor)
    (label photo : Img) (size : ℕ) (rng : Rng) :
    Except String ((Img × Img) × Rng) :=
  match get_params ops photo size size rng with
  | .error e => .error e
  | .ok ((i, j, h, w), rng) => .ok ((ops.crop label i j h w, ops.crop photo i j h w), rng)

/-- Model of `normalize_photo(t, mode)`: `"tanh"` maps the tensor to `(t - 0.5) / 0.5`,
`"01"` returns it unchanged, any other mode raises a `ValueError`.  Stated over
any tensor representation through its elementwise scalar operations. -/
def normalize_photo {Tensor : Type} (tsub tdiv : Tensor → ℚ → Tensor)
    (t : Tensor) (mode : String) : Except String Tensor :=
  if mode = "tanh" then .ok (tdiv (tsub t (1 / 2)) (1 / 2))
  else if mode = "01" then .ok t
  else .error ("Unsupported normalize mode: " ++ mode)

/-- The closure `_transform(label, photo)` returned by
`build_transform(image_size, jitter, normalize_mode, horizontal_flip)`.
The result pairs the Python return value (or the escaping exception) with the
state of the random stream after the call; the Boolean outcome of
`random.random() < 0.5` is modelled as the parity of one raw draw. -/
def _transform {Img Tensor : Type} (ops : TvOps Img Tensor) (image_size : ℕ)
    (jitter : Bool) (normalize_mode : String) (horizontal_flip : Bool)
    (rng : Rng) (label photo : Img) : Except String (Tensor × Tensor) × Rng :=
  match (if jitter then
          _random_crop_pair ops (ops.resize label 286) (ops.resize photo 286) image_size rng
        else
          .ok ((ops.resize label image_size, ops.resize photo image_size), rng)) with
  | .error e => (.error e, rng)
  | .ok ((label, photo), rng) =>
    let flipped :=
      if horizontal_flip then
        let d := rng.next
        if d.1 % 2 = 0 then (ops.hflip label, ops.hflip photo, d.2)
        else (label, photo, d.2)
      else (label, photo, rng)
    let label_t := ops.to_tensor flipped.1
    let photo_t := ops.to_tensor flipped.2.1
    match normalize_photo ops.tsub ops.tdiv photo_t normalize_mode with
    | .error e => (.error e, flipped.2.2)
    | .ok photo_t => (.ok (label_t, photo_t), flipped.2.2)

/-- Model of `build_transform`: it returns the paired transform closure. -/
def build_transform {Img Tensor : Type} (ops : TvOps Img Tensor) (image_size : ℕ)
    (jitter : Bool) (normalize_mode : String) (horizontal_flip : Bool) :
    Rng → Img → Img → Except String (Tensor × Tensor) × Rng :=
  _transform ops image_size jitter normalize_mode horizontal_flip

/-- torchvision `F.resize` with an integer size argument: the shorter edge is
matched to `size` and the longer edge is scaled to preserve the aspect ratio
(`int(size * long / short)`, modelled with natural floor division). -/
def resize_dims (d : Dims) (size : ℕ) : Dims :=
  if d.2 ≤ d.1 then (size * d.1 / d.2, size) else (size, size * d.2 / d.1)

/-- The dimension-level torchvision operations: an image or tensor is observed
as its `(height, width)` pair.  `crop` yields exactly the requested `(h, w)`
(PIL zero-pads when the box exceeds the source), `hflip` and `to_tensor`
preserve the spatial dimensions, the scalar tensor operations are elementwise
and so also preserve them. -/
def dimsOps : TvOps Dims Dims where
  resize := resize_dims
  dims := id
  crop := fun _ _ _ h w => (h, w)
  hflip := id
  to_tensor := id
  tsub := fun d _ => d
  tdiv := fun d _ => d

/-- The paired transform of `build_transform`, observed at the level of
spatial dimensions. -/
def transformDims (image_size : ℕ) (jitter : Bool) (normalize_mode : String)
    (horizontal_flip : Bool) (rng : Rng) (labelDims photoDims : Dims) :
    Except String (Dims × Dims) × Rng :=
  build_transform dimsOps image_size jitter normalize_mode horizontal_flip rng labelDims photoDims

/-- A photo tensor as the list of its scalar values, with exact rationals in
place of floats; the torch scalar operations broadcast elementwise. -/
def normalize_photoQ (t : List ℚ) (mode : String) : Except String (List ℚ) :=
  normalize_photo (fun t c => t.map (fun v => v - c)) (fun t c => t.map (fun v => v / c)) t mode

/-! ## `prepare_cityscapes.py`: the splitter over an explicit file system -/

/-- An in-memory PIL image: its width, height, and the RGB pixel at each
`(x, y)` coordinate. -/
structure Img where
  width : ℕ
  height : ℕ
  pix : ℕ → ℕ → ℕ × ℕ × ℕ

/-- Model of PIL `Image.crop((left, upper, right, lower))`: the rectangular region of width
`right - left` and height `lower - upper`; pixels are read from the source at
the translated coordinates, with PIL's zero fill outside the source bounds. -/
def Img.crop (img : Img) (left upper right lower : ℕ) : Img where
  width := right - left
  height := lower - upper
  pix := fun x y =>
    if left + x < img.width ∧ upper + y < img.height then img.pix (left + x) (upper + y)
    else (0, 0, 0)

/-- Model of `convert("RGB")` on an already-RGB raster: identity on size and pixels. -/
def Img.convertRGB (img : Img) : Img := img

/-- The fragment of the file system the pipeline touches: a map from path
strings to image file contents.  `mkdir` has no observable effect in this
model, and `save` stores the in-memory image (losslessly for PNG; JPEG
re-encoding is outside the model). -/
def FS := String → Option Img

/-- Model of `Path.exists()`. -/
def FS.pathExists (fs : FS) (p : String) : Bool := (fs p).isSome

/-- Model of `Image.save(path)`: (over)write the file at `path`. -/
def FS.write (fs : FS) (p : String) (img : Img) : FS :=
  fun q => if q = p then some img else fs q

/-- Model of `split_and_save(img_path, photo_path, label_path, overwrite)`.  The result
pairs the file system after the call with `some message` when an exception
escapes; on an exception the file-system component is the state at the moment
of the raise. -/
def split_and_save (fs : FS) (img_path photo_path label_path : String)
    (overwrite : Bool) : FS × Option String :=
  if !overwrite && fs.pathExists photo_path && fs.pathExists label_path then
    (fs, none)
  else
    match fs img_path with
    | none => (fs, some ("No such file or directory: " ++ img_path))
    | some img =>
      if img.width % 2 ≠ 0 then
        (fs, some ("Image width not divisible by 2: " ++ img_path))
      else
        let mid := img.width / 2
        let photo := (img.crop 0 0 mid img.height).convertRGB
        let label := (img.crop mid 0 img.width img.height).convertRGB
        ((fs.write photo_path photo).write label_path label, none)

/-- Model of `Path.name`: the final path component (the part after the last `/`). -/
def pathName (p : String) : String :=
  String.mk ((p.toList.reverse.takeWhile (fun c => c ≠ '/')).reverse)

/-- Model of `Path.stem`: the final path component without its last suffix (a leading
dot does not start a suffix). -/
def pathStem (p : String) : String :=
  let cs := (pathName p).toList
  if (cs.drop 1).contains '.' then
    String.mk (cs.take (cs.length - 1 - (cs.reverse.takeWhile (fun c => c ≠ '.')).length))
  else String.mk cs

/-- The raw dataset directory: for each of the `train` and `val`
subdirectories, `none` when the subdirectory is missing and otherwise the
(unordered) list of entry names found in it. -/
structure RawDir where
  train : Option (List String)
  val : Option (List String)

/-- An `fnmatch`-style match of one entry name against the pattern `"*.jpg"`:
`*` matches any (possibly empty) run of characters, so a name matches exactly
when it ends with the literal `".jpg"`. -/
def matchJpg (n : String) : Bool :=
  n.toList.reverse.take 4 == ".jpg".toList.reverse

/-- Model of `split_dir.glob("*.jpg")`: the entries matching the pattern. -/
def globJpg (names : List String) : List String :=
  names.filter matchJpg

/-- Model of `sorted` on the paths of one directory: ascending lexicographic order. -/
def sortedPaths (ps : List String) : List String :=
  ps.insertionSort (fun a b => a ≤ b)

/-- Model of `collect_files(raw_dir)`: checks `train` then `val`; each split must exist
and contain at least one `*.jpg` entry; returns the sorted full paths per
split. -/
def collect_files (rawPath : String) (raw : RawDir) :
    Except String (List String × List String) :=
  match raw.train with
  | none => .error ("Missing split directory: " ++ (rawPath ++ "/" ++ "train"))
  | some tn =>
    let tfiles := sortedPaths ((globJpg tn).map (fun n => rawPath ++ "/" ++ "train" ++ "/" ++ n))
    if tfiles = [] then .error ("No jpg files found in " ++ (rawPath ++ "/" ++ "train"))
    else
      match raw.val with
      | none => .error ("Missing split directory: " ++ (rawPath ++ "/" ++ "val"))
      | some vn =>
        let vfiles := sortedPaths ((globJpg vn).map (fun n => rawPath ++ "/" ++ "val" ++ "/" ++ n))
        if vfiles = [] then .error ("No jpg files found in " ++ (rawPath ++ "/" ++ "val"))
        else .ok (tfiles, vfiles)

/-- Model of `write_split_file(split_file, splits)`: the JSON payload it serializes,
mapping each split to the list of original file names (`p.name`), order
preserved.  Parent-directory creation and the disk write are not modelled. -/
def write_split_file (splits : List String × List String) :
    List String × List String :=
  (splits.1.map pathName, splits.2.map pathName)

/-- The photo destination `out_dir / split / "photo" / f"{stem}_photo.jpg"`. -/
def photoDest (outDir split imgPath : String) : String :=
  outDir ++ "/" ++ split ++ "/photo/" ++ pathStem imgPath ++ "_photo.jpg"

/-- The label destination `out_dir / split / "label" / f"{stem}_label.png"`. -/
def labelDest (outDir split imgPath : String) : String :=
  outDir ++ "/" ++ split ++ "/label/" ++ pathStem imgPath ++ "_label.png"

/-- The inner loop of `process_dataset` over one split's files; the loop stops
at the first uncaught exception. -/
def process_files (outDir split : String) (overwrite : Bool) :
    FS → List String → FS × Option String
  | fs, [] => (fs, none)
  | fs, p :: rest =>
    match split_and_save fs p (photoDest outDir split p) (labelDest outDir split p) overwrite with
    | (fs', some e) => (fs', some e)
    | (fs', none) => process_files outDir split overwrite fs' rest

/-- Model of `process_dataset(raw_dir, out_dir, overwrite)`: collect the files, split
every image of the `train` split and then of the `val` split, and return the
split mapping. -/
def process_dataset (rawPath : String) (raw : RawDir) (fs : FS) (outDir : String)
    (overwrite : Bool) : FS × Except String (List String × List String) :=
  match collect_files rawPath raw with
  | .error e => (fs, .error e)
  | .ok tv =>
    match process_files outDir "train" overwrite fs tv.1 with
    | (fsA, some e) => (fsA, .error e)
    | (fsA, none) =>
      match process_files outDir "val" overwrite fsA tv.2 with
      | (fsB, some e) => (fsB, .error e)
      | (fsB, none) => (fsB, .ok tv)

/-! ## `dataset.py`: the paired dataset accessor -/

/-- The value stored under the `label`/`photo` keys of a returned sample:
either the opened images (no transform) or the transform's outputs. -/
inductive SampleVal (T : Type) where
  | raw (label photo : Img)
  | transformed (label photo : T)

/-- The record returned by `__getitem__`. -/
structure Sample (T : Type) where
  val : SampleVal T
  name : String

/-- A constructed `CityscapesDataset`: its derived photo/label directories,
the file-name list of its split, and the optional paired transform. -/
structure CityscapesDataset (T : Type) where
  photo_dir : String
  label_dir : String
  files : List String
  transform : Option (Img → Img → T × T)

/-- Python list indexing `xs[i]`: non-negative indices count from the front,
negative indices from the back (`xs[-k] = xs[len(xs) - k]`); anything else
raises `IndexError`. -/
def pyListGet {α : Type} (xs : List α) (i : ℤ) : Option α :=
  if 0 ≤ i then xs.get? i.toNat
  else if 0 ≤ i + xs.length then xs.get? (i + xs.length).toNat
  else none

/-- Model of `CityscapesDataset.__getitem__(idx)`: index the file list with Python list
semantics, open and convert both images, and apply the transform when set. -/
def getitem {T : Type} (ds : CityscapesDataset T) (fs : FS) (idx : ℤ) :
    Except String (Sample T) :=
  match pyListGet ds.files idx with
  | none => .error "IndexError: list index out of range"
  | some name =>
    let stem := pathStem name
    let photo_path := ds.photo_dir ++ "/" ++ stem ++ "_photo.jpg"
    let label_path := ds.label_dir ++ "/" ++ stem ++ "_label.png"
    match fs photo_path with
    | none => .error ("No such file or directory: " ++ photo_path)
    | some photo =>
      match fs label_path with
      | none => .error ("No such file or directory: " ++ label_path)
      | some label =>
        match ds.transform with
        | some tf =>
          let lp := tf label.convertRGB photo.convertRGB
          .ok ⟨.transformed lp.1 lp.2, name⟩
        | none => .ok ⟨.raw label.convertRGB photo.convertRGB, name⟩

/-! ## Theorems -/

/-- Helper: torchvision's integer-size resize maps a square image of positive
side `s` to a square image of side `size`. -/
theorem resize_dims_square (s size : ℕ) (hs : 0 < s) :
    resize_dims (s, s) size = (size, size) := by
  simp [resize_dims, Nat.mul_div_cancel _ hs]

/-- C3: in `tanh` mode, `normalize_photo` maps each tensor value `v` to
`(v - 0.5) / 0.5`; when all input values lie in `[0, 1]` every output value
lies in `[-1, 1]`; and mapping `v * 0.5 + 0.5` over the output recovers the
input tensor exactly. -/
theorem normalize_photo_tanh_range_roundtrip (t out : List ℚ)
    (hout : normalize_photoQ t "tanh" = .ok out) :
    out = t.map (fun v => (v - 1 / 2) / (1 / 2)) ∧
    ((∀ v ∈ t, 0 ≤ v ∧ v ≤ 1) → ∀ w ∈ out, -1 ≤ w ∧ w ≤ 1) ∧
    out.map (fun v => v * (1 / 2) + 1 / 2) = t := by
  have h1 : out = t.map (fun v => (v - 1 / 2) / (1 / 2)) := by
    have := hout
    simp only [normalize_photoQ, normalize_photo, if_pos rfl, List.map_map] at this
    cases this
    rfl
  refine ⟨h1, ?_, ?_⟩
  · intro hin w hw
    rw [h1] at hw
    rcases List.mem_map.mp hw with ⟨v, hv, hvw⟩
    rcases hin v hv with ⟨h0, h1'⟩
    have hval : (v - 1 / 2) / ((1 : ℚ) / 2) = 2 * v - 1 := by ring
    constructor <;> (rw [← hvw, hval]; linarith)
  · rw [h1, List.map_map]
    have hfun : ((fun v : ℚ => v * (1 / 2) + 1 / 2) ∘ fun v => (v - 1 / 2) / (1 / 2)) = id := by
      funext v
      show ((v - 1 / 2) / (1 / 2)) * (1 / 2) + 1 / 2 = v
      ring
    rw [hfun, List.map_id]

/-- Witness for C3 at the concrete tensor `[0, 1/2, 1]`. -/
theorem normalize_photo_tanh_witness :
    normalize_photoQ [0, 1/2, 1] "tanh" = .ok [-1, 0, 1] ∧
    ([-1, 0, 1] : List ℚ) = ([0, 1/2, 1] : List ℚ).map (fun v => (v - 1 / 2) / (1 / 2)) ∧
    ((∀ v ∈ ([0, 1/2, 1] : List ℚ), 0 ≤ v ∧ v ≤ 1) →
      ∀ w ∈ ([-1, 0, 1] : List ℚ), -1 ≤ w ∧ w ≤ 1) ∧
    ([-1, 0, 1] : List ℚ).map (fun v => v * (1 / 2) + 1 / 2) = [0, 1/2, 1] := by
  have h : normalize_photoQ [0, 1/2, 1] "tanh" = .ok [-1, 0, 1] := by
    simp only [normalize_photoQ, normalize_photo, if_pos rfl, List.map_cons, List.map_nil]
    norm_num
  exact ⟨h, normalize_photo_tanh_range_roundtrip [0, 1/2, 1] [-1, 0, 1] h⟩

/-- C10: a transform built with `jitter = False` and `horizontal_flip = False`
consumes no randomness: the random stream is returned untouched and the
returned tensors do not depend on it, for every implementation of the
torchvision primitives — so two invocations on equal input pairs agree. -/
theorem transform_no_jitter_no_flip_deterministic {Img Tensor : Type}
    (ops : TvOps Img Tensor) (image_size : ℕ) (mode : String) (rng₁ rng₂ : Rng)
    (label photo : Img) :
    build_transform ops image_size false mode false rng₁ label photo =
      ((build_transform ops image_size false mode false rng₂ label photo).1, rng₁) := by
  by_cases h1 : mode = "tanh"
  · simp [build_transform, _transform, normalize_photo, h1]
  · by_cases h2 : mode = "01"
    · simp [build_transform, _transform, normalize_photo, h1, h2]
    · simp [build_transform, _transform, normalize_photo, h1, h2]

/-- C1 (amended): for same-size SQUARE inputs of positive side `s`, and, when
jitter is enabled, `image_size ≤ 286`, the paired transform yields a label
output and a photo output with identical spatial dimensions equal to
`image_size × image_size`, for any random draws and flip setting. -/
theorem transform_dims_square (image_size : ℕ) (jitter flip : Bool) (mode : String)
    (rng : Rng) (s : ℕ) (hs : 0 < s) (hmode : mode = "tanh" ∨ mode = "01")
    (hjit : jitter = true → image_size ≤ 286) :
    (transformDims image_size jitter mode flip rng (s, s) (s, s)).1 =
      .ok ((image_size, image_size), (image_size, image_size)) := by
  have hnorm : ∀ d : Dims, normalize_photo dimsOps.tsub dimsOps.tdiv d mode = .ok d := by
    intro d
    rcases hmode with h | h <;> simp [normalize_photo, h, dimsOps]
  have hOresize : dimsOps.resize = resize_dims := rfl
  have hOt : ∀ d : Dims, dimsOps.to_tensor d = d := fun _ => rfl
  have hOh : ∀ d : Dims, dimsOps.hflip d = d := fun _ => rfl
  cases jitter with
  | false =>
    cases flip with
    | false =>
      simp [transformDims, build_transform, _transform, hOresize,
        resize_dims_square _ _ hs, hOt, hnorm]
    | true =>
      simp [transformDims, build_transform, _transform, hOresize,
        resize_dims_square _ _ hs, hOt, hOh, hnorm]
  | true =>
    have h286 : image_size ≤ 286 := hjit rfl
    have hcrop : ∀ r : Rng, _random_crop_pair dimsOps (286, 286) (286, 286) image_size r =
        .ok (((image_size, image_size), (image_size, image_size)),
          (if 286 = image_size then r else (r.next.2).next.2)) := by
      intro r
      by_cases he : 286 = image_size
      · subst he
        simp [_random_crop_pair, get_params, dimsOps]
      · have hlt : ¬ (286 < image_size) := by omega
        simp [_random_crop_pair, get_params, dimsOps, hlt, he]
    cases flip with
    | false =>
      simp [transformDims, build_transform, _transform, hOresize,
        resize_dims_square _ _ hs, hcrop, hOt, hnorm]
    | true =>
      simp [transformDims, build_transform, _transform, hOresize,
        resize_dims_square _ _ hs, hcrop, hOt, hOh, hnorm]

/-- Witness for C1 (amended) at `image_size = 256`, jitter and flip enabled,
square `300 × 300` inputs, draws `[5, 7]`. -/
theorem transform_dims_square_witness :
    (transformDims 256 true "tanh" true [5, 7] (300, 300) (300, 300)).1 =
      .ok ((256, 256), (256, 256)) :=
  transform_dims_square 256 true true "tanh" [5, 7] 300 (by decide) (Or.inl rfl)
    (fun _ => by decide)

/-- C1 counterexample: with `jitter = False`, the transform built with
`image_size = 256` maps a pair of same-size non-square inputs of
`(height, width) = (100, 200)` to outputs of spatial size `(256, 512)` —
identical for label and photo, but not `256 × 256`: the integer-size resize
preserves the aspect ratio. -/
theorem transform_dims_not_square :
    (transformDims 256 false "tanh" false [] (100, 200) (100, 200)).1 =
      .ok ((256, 512), (256, 512)) ∧ ((256, 512) : Dims) ≠ ((256, 256) : Dims) := by
  exact ⟨rfl, by decide⟩

/-- Helper: pixel access of a crop inside the source bounds. -/
theorem Img.crop_pix_of_lt (img : Img) (l u r b x y : ℕ)
    (hx : l + x < img.width) (hy : u + y < img.height) :
    (img.crop l u r b).pix x y = img.pix (l + x) (u + y) := by
  simp [Img.crop, hx, hy]

/-- C2: on a source of even width `2 * m`, a non-skipped `split_and_save`
writes a photo of size `(m, H)` equal to the left `m` columns and a label of
size `(m, H)` equal to the right `m` columns, and nothing else. -/
theorem split_and_save_halves (fs : FS) (img_path photo_path label_path : String)
    (overwrite : Bool) (img : Img) (m : ℕ)
    (hsrc : fs img_path = some img) (hw : img.width = 2 * m)
    (hns : (!overwrite && fs.pathExists photo_path && fs.pathExists label_path) = false) :
    split_and_save fs img_path photo_path label_path overwrite =
      ((fs.write photo_path ((img.crop 0 0 m img.height).convertRGB)).write label_path
        ((img.crop m 0 img.width img.height).convertRGB), none) ∧
    (img.crop 0 0 m img.height).width = m ∧
    (img.crop 0 0 m img.height).height = img.height ∧
    (img.crop m 0 img.width img.height).width = m ∧
    (img.crop m 0 img.width img.height).height = img.height ∧
    (∀ x, x < m → ∀ y, y < img.height →
      (img.crop 0 0 m img.height).pix x y = img.pix x y ∧
      (img.crop m 0 img.width img.height).pix x y = img.pix (m + x) y) := by
  have hmid : img.width / 2 = m := by omega
  have hmod : img.width % 2 = 0 := by omega
  refine ⟨?_, rfl, ?_, ?_, ?_, ?_⟩
  · simp [split_and_save, hns, hsrc, hmod, hmid]
  · show img.height - 0 = img.height
    omega
  · show img.width - m = m
    omega
  · show img.height - 0 = img.height
    omega
  · intro x hx y hy
    constructor
    · have := Img.crop_pix_of_lt img 0 0 m img.height x y (by omega) (by omega)
      simpa using this
    · have := Img.crop_pix_of_lt img m 0 img.width img.height x y (by omega) (by omega)
      simpa using this

/-- A concrete 4 × 2 source image for witnesses: pixel `(x, y)` is `(x, y, 0)`. -/
def imgC : Img := ⟨4, 2, fun x y => (x, y, 0)⟩

/-- A concrete file system holding only the source image `s.jpg`. -/
def fsC : FS := fun p => if p = "s.jpg" then some imgC else none

/-- Witness for C2 on the concrete 4 × 2 source. -/
theorem split_and_save_halves_witness :
    split_and_save fsC "s.jpg" "p.jpg" "l.png" true =
      ((fsC.write "p.jpg" ((imgC.crop 0 0 2 imgC.height).convertRGB)).write "l.png"
        ((imgC.crop 2 0 imgC.width imgC.height).convertRGB), none) ∧
    (imgC.crop 0 0 2 imgC.height).width = 2 ∧
    (imgC.crop 0 0 2 imgC.height).height = imgC.height ∧
    (imgC.crop 2 0 imgC.width imgC.height).width = 2 ∧
    (imgC.crop 2 0 imgC.width imgC.height).height = imgC.height ∧
    (∀ x, x < 2 → ∀ y, y < imgC.height →
      (imgC.crop 0 0 2 imgC.height).pix x y = imgC.pix x y ∧
      (imgC.crop 2 0 imgC.width imgC.height).pix x y = imgC.pix (2 + x) y) :=
  split_and_save_halves fsC "s.jpg" "p.jpg" "l.png" true imgC 2 rfl rfl rfl

/-- C6 (amended): when the call is not skipped, a source of odd width raises
the malformed-input `ValueError` and the file system is unchanged — neither
destination is written. -/
theorem split_and_save_odd_width_error (fs : FS)
    (img_path photo_path label_path : String) (overwrite : Bool) (img : Img)
    (hns : (!overwrite && fs.pathExists photo_path && fs.pathExists label_path) = false)
    (hsrc : fs img_path = some img) (hodd : img.width % 2 = 1) :
    split_and_save fs img_path photo_path label_path overwrite =
      (fs, some ("Image width not divisible by 2: " ++ img_path)) := by
  simp [split_and_save, hns, hsrc, hodd]

/-- A 3 × 2 odd-width source image. -/
def imgOdd : Img := ⟨3, 2, fun _ _ => (0, 0, 0)⟩

/-- A file system where the odd-width source and both destinations exist. -/
def fsOdd : FS := fun p =>
  if p = "s.jpg" ∨ p = "p.jpg" ∨ p = "l.png" then some imgOdd else none

/-- Witness for C6 (amended): overwrite processing of the odd-width source
raises the error and leaves the state unchanged. -/
theorem split_and_save_odd_width_error_witness :
    split_and_save fsOdd "s.jpg" "p.jpg" "l.png" true =
      (fsOdd, some "Image width not divisible by 2: s.jpg") :=
  split_and_save_odd_width_error fsOdd "s.jpg" "p.jpg" "l.png" true imgOdd rfl rfl rfl

/-- C6 counterexample: when both destinations already exist and `overwrite` is
false, the odd-width source raises no error at all — the check is never
reached because the call is skipped. -/
theorem split_and_save_odd_width_skipped :
    fsOdd "s.jpg" = some imgOdd ∧ imgOdd.width % 2 = 1 ∧
    split_and_save fsOdd "s.jpg" "p.jpg" "l.png" false = (fsOdd, none) :=
  ⟨rfl, rfl, rfl⟩

/-- C9: if exactly one of the two destinations exists and `overwrite` is
false, the call is not skipped: it re-splits the source and rewrites both
destinations, overwriting the one that already existed. -/
theorem split_and_save_one_dest_rewrites (fs : FS)
    (img_path photo_path label_path : String) (img : Img)
    (hxor : fs.pathExists photo_path ≠ fs.pathExists label_path)
    (hne : photo_path ≠ label_path)
    (hsrc : fs img_path = some img) (heven : img.width % 2 = 0) :
    split_and_save fs img_path photo_path label_path false =
      ((fs.write photo_path ((img.crop 0 0 (img.width / 2) img.height).convertRGB)).write
        label_path ((img.crop (img.width / 2) 0 img.width img.height).convertRGB), none) ∧
    (split_and_save fs img_path photo_path label_path false).1 photo_path =
      some ((img.crop 0 0 (img.width / 2) img.height).convertRGB) ∧
    (split_and_save fs img_path photo_path label_path false).1 label_path =
      some ((img.crop (img.width / 2) 0 img.width img.height).convertRGB) := by
  have hns : (fs.pathExists photo_path && fs.pathExists label_path) = false := by
    cases h1 : fs.pathExists photo_path <;> cases h2 : fs.pathExists label_path <;>
      simp_all
  have h1 : split_and_save fs img_path photo_path label_path false =
      ((fs.write photo_path ((img.crop 0 0 (img.width / 2) img.height).convertRGB)).write
        label_path ((img.crop (img.width / 2) 0 img.width img.height).convertRGB), none) := by
    simp [split_and_save, hns, hsrc, heven]
  refine ⟨h1, ?_, ?_⟩
  · rw [h1]
    simp [FS.write, hne]
  · rw [h1]
    simp [FS.write]

/-- A file system where the source and the photo destination exist but the
label destination is missing. -/
def fsHalf : FS := fun p =>
  if p = "s.jpg" then some imgC else if p = "p.jpg" then some imgOdd else none

/-- Witness for C9: with only the photo destination present, both destinations
are rewritten from the source. -/
theorem split_and_save_one_dest_rewrites_witness :
    split_and_save fsHalf "s.jpg" "p.jpg" "l.png" false =
      ((fsHalf.write "p.jpg" ((imgC.crop 0 0 (imgC.width / 2) imgC.height).convertRGB)).write
        "l.png" ((imgC.crop (imgC.width / 2) 0 imgC.width imgC.height).convertRGB), none) ∧
    (split_and_save fsHalf "s.jpg" "p.jpg" "l.png" false).1 "p.jpg" =
      some ((imgC.crop 0 0 (imgC.width / 2) imgC.height).convertRGB) ∧
    (split_and_save fsHalf "s.jpg" "p.jpg" "l.png" false).1 "l.png" =
      some ((imgC.crop (imgC.width / 2) 0 imgC.width imgC.height).convertRGB) :=
  split_and_save_one_dest_rewrites fsHalf "s.jpg" "p.jpg" "l.png" imgC
    (by decide) (by decide) rfl rfl

/-- A concrete one-file dataset with no transform. -/
def dsC : CityscapesDataset Unit :=
  ⟨"out/photo", "out/label", ["1.jpg"], none⟩

/-- A concrete file system holding the one-file dataset's two images. -/
def fsDs : FS := fun p =>
  if p = "out/photo/1_photo.jpg" ∨ p = "out/label/1_label.png" then some imgC else none

/-- C5 (amended): `__getitem__` raises `IndexError` exactly for indices below
`-len` or at/above `len`; a negative index `-len ≤ idx < 0` is not an error
but aliases index `idx + len`, by Python list-indexing semantics. -/
theorem getitem_index_semantics {T : Type} (ds : CityscapesDataset T) (fs : FS)
    (idx : ℤ) :
    ((idx < -(ds.files.length : ℤ) ∨ (ds.files.length : ℤ) ≤ idx) →
      getitem ds fs idx = .error "IndexError: list index out of range") ∧
    (-(ds.files.length : ℤ) ≤ idx → idx < 0 →
      getitem ds fs idx = getitem ds fs (idx + ds.files.length)) := by
  constructor
  · intro hout
    have hnone : pyListGet ds.files idx = none := by
      rcases hout with h | h
      · have h0 : ¬ (0 ≤ idx) := by omega
        have h1 : ¬ (0 ≤ idx + ds.files.length) := by omega
        simp [pyListGet, h0, h1]
      · have h0 : 0 ≤ idx := by omega
        have h1 : ds.files.length ≤ idx.toNat := by omega
        simp only [pyListGet, if_pos h0]
        exact List.get?_eq_none.mpr h1
    simp [getitem, hnone]
  · intro hlo hhi
    have h0 : ¬ (0 ≤ idx) := by omega
    have h1 : 0 ≤ idx + ds.files.length := by omega
    have heq : pyListGet ds.files idx = pyListGet ds.files (idx + ds.files.length) := by
      simp [pyListGet, h0, h1]
    unfold getitem
    rw [heq]

/-- Witness for C5 (amended) on the concrete one-file dataset. -/
theorem getitem_index_semantics_witness :
    (getitem dsC fsC 5 = .error "IndexError: list index out of range") ∧
    getitem dsC fsC (-1) = getitem dsC fsC (-1 + dsC.files.length) :=
  ⟨(getitem_index_semantics dsC fsC 5).1 (Or.inr (by decide)),
   (getitem_index_semantics dsC fsC (-1)).2 (by decide) (by decide)⟩

/-- C5 counterexample: on a one-file dataset, the out-of-range index `-1`
does not raise — Python list indexing counts it from the back, and a full
sample record is returned. -/
theorem getitem_negative_index_ok :
    dsC.files.length = 1 ∧ (-1 : ℤ) < 0 ∧
    getitem dsC fsDs (-1) = .ok ⟨.raw imgC imgC, "1.jpg"⟩ :=
  ⟨rfl, by decide, rfl⟩

/-- Helper: writing one file preserves the existence of every path. -/
theorem FS.pathExists_write_mono (fs : FS) (p q : String) (img : Img)
    (h : fs.pathExists q = true) : (fs.write p img).pathExists q = true := by
  by_cases hq : q = p
  · simp [FS.write, FS.pathExists, hq]
  · simp only [FS.write, FS.pathExists, if_neg hq]
    exact h

/-- Helper: after writing a file, it exists. -/
theorem FS.pathExists_write_self (fs : FS) (p : String) (img : Img) :
    (fs.write p img).pathExists p = true := by
  simp [FS.write, FS.pathExists]

/-- Helper: with both destinations present and `overwrite` false,
`split_and_save` skips all work and leaves the state untouched. -/
theorem split_and_save_skip (fs : FS) (ip pp lp : String)
    (hp : fs.pathExists pp = true) (hl : fs.pathExists lp = true) :
    split_and_save fs ip pp lp false = (fs, none) := by
  simp [split_and_save, hp, hl]

/-- Helper: full case analysis of one `split_and_save` call. -/
theorem split_and_save_cases (fs : FS) (ip pp lp : String) (ow : Bool) :
    (fs.pathExists pp = true ∧ fs.pathExists lp = true ∧
      split_and_save fs ip pp lp ow = (fs, none)) ∨
    (∃ e, split_and_save fs ip pp lp ow = (fs, some e)) ∨
    (∃ img, fs ip = some img ∧ img.width % 2 = 0 ∧
      split_and_save fs ip pp lp ow =
        ((fs.write pp ((img.crop 0 0 (img.width / 2) img.height).convertRGB)).write lp
          ((img.crop (img.width / 2) 0 img.width img.height).convertRGB), none)) := by
  by_cases hc : (!ow && fs.pathExists pp && fs.pathExists lp) = true
  · left
    have hc' := hc
    simp only [Bool.and_eq_true] at hc'
    exact ⟨hc'.1.2, hc'.2, by simp [split_and_save, hc]⟩
  · right
    cases hip : fs ip with
    | none =>
      left
      exact ⟨"No such file or directory: " ++ ip, by simp [split_and_save, hc, hip]⟩
    | some img =>
      by_cases hodd : img.width % 2 = 0
      · right
        exact ⟨img, rfl, hodd, by simp [split_and_save, hc, hip, hodd]⟩
      · left
        exact ⟨"Image width not divisible by 2: " ++ ip, by simp [split_and_save, hc, hip, hodd]⟩

/-- Helper: a `split_and_save` call that raises no exception leaves both
destinations present. -/
theorem split_and_save_ok_dests (fs : FS) (ip pp lp : String) (ow : Bool) (fs' : FS)
    (h : split_and_save fs ip pp lp ow = (fs', none)) :
    fs'.pathExists pp = true ∧ fs'.pathExists lp = true := by
  rcases split_and_save_cases fs ip pp lp ow with ⟨hp, hl, heq⟩ | ⟨e, heq⟩ | ⟨img, _, _, heq⟩
  · rw [heq] at h
    obtain rfl : fs = fs' := congrArg Prod.fst h
    exact ⟨hp, hl⟩
  · rw [heq] at h
    have h2 : (some e : Option String) = none := congrArg Prod.snd h
    simp at h2
  · rw [heq] at h
    obtain rfl : _ = fs' := congrArg Prod.fst h
    exact ⟨FS.pathExists_write_mono _ _ _ _ (FS.pathExists_write_self _ _ _),
      FS.pathExists_write_self _ _ _⟩

/-- Helper: a `split_and_save` call that raises no exception preserves the
existence of every path. -/
theorem split_and_save_mono (fs : FS) (ip pp lp : String) (ow : Bool) (fs' : FS) (q : String)
    (h : split_and_save fs ip pp lp ow = (fs', none)) (hq : fs.pathExists q = true) :
    fs'.pathExists q = true := by
  rcases split_and_save_cases fs ip pp lp ow with ⟨_, _, heq⟩ | ⟨e, heq⟩ | ⟨img, _, _, heq⟩
  · rw [heq] at h
    obtain rfl : fs = fs' := congrArg Prod.fst h
    exact hq
  · rw [heq] at h
    have h2 : (some e : Option String) = none := congrArg Prod.snd h
    simp at h2
  · rw [heq] at h
    obtain rfl : _ = fs' := congrArg Prod.fst h
    exact FS.pathExists_write_mono _ _ _ _ (FS.pathExists_write_mono _ _ _ _ hq)

/-- Helper: a successful pass over one split preserves path existence. -/
theorem process_files_mono (out split : String) (files : List String) (fs : FS) (q : String)
    (h : (process_files out split false fs files).2 = none)
    (hq : fs.pathExists q = true) :
    ((process_files out split false fs files).1).pathExists q = true := by
  induction files generalizing fs with
  | nil => simpa [process_files] using hq
  | cons p rest ih =>
    simp only [process_files] at h ⊢
    cases hsp : split_and_save fs p (photoDest out split p) (labelDest out split p) false with
    | mk fs' e =>
      rw [hsp] at h
      cases e with
      | some msg => simp at h
      | none => exact ih fs' h (split_and_save_mono _ _ _ _ _ _ _ hsp hq)

/-- Helper: after a successful pass over one split, both destinations of every
processed file exist. -/
theorem process_files_ok_dests (out split : String) (files : List String) (fs : FS)
    (h : (process_files out split false fs files).2 = none) :
    ∀ p ∈ files,
      ((process_files out split false fs files).1).pathExists (photoDest out split p) = true ∧
      ((process_files out split false fs files).1).pathExists (labelDest out split p) = true := by
  induction files generalizing fs with
  | nil =>
    intro p hp
    cases hp
  | cons p0 rest ih =>
    intro p hp
    simp only [process_files] at h ⊢
    cases hsp : split_and_save fs p0 (photoDest out split p0) (labelDest out split p0) false with
    | mk fs' e =>
      rw [hsp] at h
      cases e with
      | some msg => simp at h
      | none =>
        rcases List.mem_cons.mp hp with rfl | hmem
        · obtain ⟨h1, h2⟩ := split_and_save_ok_dests _ _ _ _ _ _ hsp
          exact ⟨process_files_mono out split rest fs' _ h h1,
            process_files_mono out split rest fs' _ h h2⟩
        · exact ih fs' h p hmem

/-- Helper: a pass over one split whose destinations all already exist is a
no-op. -/
theorem process_files_all_skip (out split : String) (files : List String) (fs : FS)
    (hall : ∀ p ∈ files, fs.pathExists (photoDest out split p) = true ∧
      fs.pathExists (labelDest out split p) = true) :
    process_files out split false fs files = (fs, none) := by
  induction files with
  | nil => rfl
  | cons p rest ih =>
    have hskip := split_and_save_skip fs p (photoDest out split p) (labelDest out split p)
      (hall p (by simp)).1 (hall p (by simp)).2
    simp only [process_files, hskip]
    exact ih (fun q hq => hall q (by simp [hq]))

/-- C4: with both destinations present and `overwrite` false, `split_and_save`
returns immediately — whatever the rest of the file system holds, the source is
never read and no file is written; consequently re-running `process_dataset`
over already-processed output changes no file and returns the same split
mapping. -/
theorem split_skip_and_reprocess_idempotent :
    (∀ (fs : FS) (ip pp lp : String), fs.pathExists pp = true → fs.pathExists lp = true →
      split_and_save fs ip pp lp false = (fs, none)) ∧
    (∀ (rawPath : String) (raw : RawDir) (fs fs₁ : FS) (outDir : String)
      (s : List String × List String),
      process_dataset rawPath raw fs outDir false = (fs₁, .ok s) →
      process_dataset rawPath raw fs₁ outDir false = (fs₁, .ok s)) := by
  refine ⟨split_and_save_skip, ?_⟩
  intro rawPath raw fs fs₁ outDir s h
  unfold process_dataset at h
  split at h
  next e he => simp at h
  next tv hcf =>
    split at h
    next fsA e h1 => simp at h
    next fsA h1 =>
      split at h
      next fsB e h2 => simp at h
      next fsB h2 =>
        have hfs : fsB = fs₁ := congrArg Prod.fst h
        subst hfs
        have hs : (Except.ok tv : Except String (List String × List String)) = .ok s :=
          congrArg Prod.snd h
        have hstv : tv = s := by
          cases hs
          rfl
        subst hstv
        have htr : ∀ p ∈ tv.1, fsB.pathExists (photoDest outDir "train" p) = true ∧
            fsB.pathExists (labelDest outDir "train" p) = true := by
          intro p hp
          have hd := process_files_ok_dests outDir "train" tv.1 fs (by rw [h1]) p hp
          rw [h1] at hd
          have hm1 := process_files_mono outDir "val" tv.2 fsA
            (photoDest outDir "train" p) (by rw [h2]) hd.1
          have hm2 := process_files_mono outDir "val" tv.2 fsA
            (labelDest outDir "train" p) (by rw [h2]) hd.2
          rw [h2] at hm1 hm2
          exact ⟨hm1, hm2⟩
        have hv : ∀ p ∈ tv.2, fsB.pathExists (photoDest outDir "val" p) = true ∧
            fsB.pathExists (labelDest outDir "val" p) = true := by
          intro p hp
          have hd := process_files_ok_dests outDir "val" tv.2 fsA (by rw [h2]) p hp
          rw [h2] at hd
          exact hd
        simp only [process_dataset, hcf, process_files_all_skip outDir "train" tv.1 fsB htr,
          process_files_all_skip outDir "val" tv.2 fsB hv]

/-- Concrete raw directory for the C4 witness. -/
def rawW : RawDir := ⟨some ["1.jpg"], some ["2.jpg"]⟩

/-- Concrete file system holding the two raw source images of `rawW`. -/
def fsW : FS := fun p =>
  if p = "raw/train/1.jpg" ∨ p = "raw/val/2.jpg" then some imgC else none

/-- Witness for C4: the skip case on a concrete state, and idempotence of a
concrete re-run. -/
theorem split_skip_and_reprocess_idempotent_witness :
    split_and_save fsOdd "s.jpg" "p.jpg" "l.png" false = (fsOdd, none) ∧
    process_dataset "raw" rawW ((process_dataset "raw" rawW fsW "out" false).1) "out" false =
      ((process_dataset "raw" rawW fsW "out" false).1,
        .ok (["raw/train/1.jpg"], ["raw/val/2.jpg"])) :=
  ⟨split_skip_and_reprocess_idempotent.1 fsOdd "s.jpg" "p.jpg" "l.png" rfl rfl,
   split_skip_and_reprocess_idempotent.2 "raw" rawW fsW _ "out"
     (["raw/train/1.jpg"], ["raw/val/2.jpg"]) rfl⟩

/-- Helper: appending a common left part preserves the lexicographic order of
character lists. -/
theorem list_le_append_iff {α : Type} [LinearOrder α] (p a b : List α) :
    p ++ a ≤ p ++ b ↔ a ≤ b := by
  rw [← not_lt, ← not_lt]
  apply not_congr
  show List.Lex (· < ·) (p ++ b) (p ++ a) ↔ List.Lex (· < ·) b a
  induction p with
  | nil => exact Iff.rfl
  | cons c p ih =>
    rw [List.cons_append, List.cons_append, List.Lex.cons_iff]
    exact ih

/-- Helper: appending a common left part preserves the lexicographic order of
strings. -/
theorem string_le_append_iff (p a b : String) : p ++ a ≤ p ++ b ↔ a ≤ b := by
  rw [String.le_iff_toList_le, String.le_iff_toList_le]
  show p.toList ++ a.toList ≤ p.toList ++ b.toList ↔ _
  exact list_le_append_iff _ _ _

/-- Helper: sorting commutes with prefixing every entry by the same string. -/
theorem sortedPaths_map_prefixed (pre : String) (l : List String) :
    sortedPaths (l.map (fun n => pre ++ n)) = (sortedPaths l).map (fun n => pre ++ n) := by
  have hperm : List.Perm (sortedPaths (l.map (fun n => pre ++ n)))
      ((sortedPaths l).map (fun n => pre ++ n)) :=
    (List.perm_insertionSort _ _).trans
      ((List.perm_insertionSort (fun a b => a ≤ b) l).map _).symm
  have hs1 : List.Sorted (fun a b : String => a ≤ b)
      (sortedPaths (l.map (fun n => pre ++ n))) :=
    List.sorted_insertionSort _ _
  have hs2 : List.Sorted (fun a b : String => a ≤ b)
      ((sortedPaths l).map (fun n => pre ++ n)) :=
    List.Pairwise.map _ (fun a b h => (string_le_append_iff pre a b).mpr h)
      (List.sorted_insertionSort (fun a b => a ≤ b) l)
  exact List.eq_of_perm_of_sorted hperm hs1 hs2

/-- Helper: `takeWhile` of a clean run followed by a failing element. -/
theorem takeWhile_append_cons {α : Type} (p : α → Bool) (l1 l2 : List α) (x : α)
    (h1 : ∀ a ∈ l1, p a = true) (hx : p x = false) :
    (l1 ++ x :: l2).takeWhile p = l1 := by
  induction l1 with
  | nil => simp [List.takeWhile_cons, hx]
  | cons a t ih =>
    have ha : p a = true := h1 a (by simp)
    simp only [List.cons_append, List.takeWhile_cons, ha, if_true]
    rw [ih (fun b hb => h1 b (by simp [hb]))]

/-- Helper: `Path.name` of a directory prefix joined to a slash-free name. -/
theorem pathName_append (p n : String) (hn : ∀ c ∈ n.toList, c ≠ '/') :
    pathName (p ++ "/" ++ n) = n := by
  unfold pathName
  have hdata : (p ++ "/" ++ n).toList = p.toList ++ ('/' :: n.toList) := by
    show (p ++ "/" ++ n).data = p.data ++ ('/' :: n.data)
    rw [String.data_append, String.data_append, List.append_assoc]
    rfl
  rw [hdata, List.reverse_append, List.reverse_cons, List.append_assoc,
    List.singleton_append]
  rw [takeWhile_append_cons _ _ _ _
    (fun a ha => by simpa using hn a (List.mem_reverse.mp ha)) (by simp)]
  rw [List.reverse_reverse]
  rfl

/-- Helper: stripping the directory prefix from sorted full paths recovers the
sorted file names. -/
theorem map_pathName_sortedPaths (pre : String) (l : List String)
    (hl : ∀ n ∈ l, ∀ c ∈ n.toList, c ≠ '/') :
    (sortedPaths (l.map (fun n => pre ++ "/" ++ n))).map pathName = sortedPaths l := by
  rw [sortedPaths_map_prefixed (pre ++ "/") l, List.map_map]
  refine (List.map_congr_left ?_).trans (List.map_id _)
  intro n hn
  exact pathName_append pre n
    (hl n ((List.perm_insertionSort (fun a b => a ≤ b) l).mem_iff.mp hn))

/-- Helper: sorting yields the empty list only on the empty list. -/
theorem sortedPaths_eq_nil_iff (l : List String) : sortedPaths l = [] ↔ l = [] := by
  constructor
  · intro h
    have hlen : (sortedPaths l).length = l.length :=
      (List.perm_insertionSort (fun a b => a ≤ b) l).length_eq
    rw [h] at hlen
    exact List.length_eq_zero.mp hlen.symm
  · intro h
    subst h
    rfl

/-- C7: `collect_files` checks `train` then `val`: a missing subdirectory
fails with the missing-directory error, a subdirectory without matching images
fails with the no-images error, and otherwise each split's returned list is
the matching file paths sorted ascending lexicographically by filename. -/
theorem collect_files_spec (rawPath : String) (raw : RawDir) :
    (raw.train = none →
      collect_files rawPath raw =
        .error ("Missing split directory: " ++ (rawPath ++ "/" ++ "train"))) ∧
    (∀ tn, raw.train = some tn → globJpg tn = [] →
      collect_files rawPath raw =
        .error ("No jpg files found in " ++ (rawPath ++ "/" ++ "train"))) ∧
    (∀ tn, raw.train = some tn → globJpg tn ≠ [] → raw.val = none →
      collect_files rawPath raw =
        .error ("Missing split directory: " ++ (rawPath ++ "/" ++ "val"))) ∧
    (∀ tn vn, raw.train = some tn → globJpg tn ≠ [] → raw.val = some vn →
      globJpg vn = [] →
      collect_files rawPath raw =
        .error ("No jpg files found in " ++ (rawPath ++ "/" ++ "val"))) ∧
    (∀ tn vn, raw.train = some tn → raw.val = some vn →
      globJpg tn ≠ [] → globJpg vn ≠ [] →
      (∀ n ∈ tn, ∀ c ∈ n.toList, c ≠ '/') → (∀ n ∈ vn, ∀ c ∈ n.toList, c ≠ '/') →
      ∃ tfiles vfiles,
        collect_files rawPath raw = .ok (tfiles, vfiles) ∧
        tfiles.map pathName = sortedPaths (globJpg tn) ∧
        vfiles.map pathName = sortedPaths (globJpg vn) ∧
        (tfiles.map pathName).Sorted (fun a b => a ≤ b) ∧
        (vfiles.map pathName).Sorted (fun a b => a ≤ b) ∧
        List.Perm (tfiles.map pathName) (globJpg tn) ∧
        List.Perm (vfiles.map pathName) (globJpg vn)) := by
  refine ⟨?_, ?_, ?_, ?_, ?_⟩
  · intro h
    simp [collect_files, h]
  · intro tn htr hglob
    have htz : sortedPaths ((globJpg tn).map
        (fun n => rawPath ++ "/" ++ "train" ++ "/" ++ n)) = [] := by
      rw [hglob]
      rfl
    simp [collect_files, htr, htz]
  · intro tn htr hne hval
    have htf : sortedPaths ((globJpg tn).map
        (fun n => rawPath ++ "/" ++ "train" ++ "/" ++ n)) ≠ [] := by
      rw [Ne, sortedPaths_eq_nil_iff, List.map_eq_nil_iff]
      exact hne
    simp [collect_files, htr, htf, hval]
  · intro tn vn htr htne hvr hvglob
    have htf : sortedPaths ((globJpg tn).map
        (fun n => rawPath ++ "/" ++ "train" ++ "/" ++ n)) ≠ [] := by
      rw [Ne, sortedPaths_eq_nil_iff, List.map_eq_nil_iff]
      exact htne
    have hvz : sortedPaths ((globJpg vn).map
        (fun n => rawPath ++ "/" ++ "val" ++ "/" ++ n)) = [] := by
      rw [hvglob]
      rfl
    simp [collect_files, htr, htf, hvr, hvz]
  · intro tn vn htr hvr htne hvne hst hsv
    have htf : sortedPaths ((globJpg tn).map
        (fun n => rawPath ++ "/" ++ "train" ++ "/" ++ n)) ≠ [] := by
      rw [Ne, sortedPaths_eq_nil_iff, List.map_eq_nil_iff]
      exact htne
    have hvf : sortedPaths ((globJpg vn).map
        (fun n => rawPath ++ "/" ++ "val" ++ "/" ++ n)) ≠ [] := by
      rw [Ne, sortedPaths_eq_nil_iff, List.map_eq_nil_iff]
      exact hvne
    have hmt := map_pathName_sortedPaths (rawPath ++ "/" ++ "train") (globJpg tn)
      (fun n hn => hst n (List.mem_filter.mp hn).1)
    have hmv := map_pathName_sortedPaths (rawPath ++ "/" ++ "val") (globJpg vn)
      (fun n hn => hsv n (List.mem_filter.mp hn).1)
    refine ⟨_, _, ?_, hmt, hmv, ?_, ?_, ?_, ?_⟩
    · simp [collect_files, htr, hvr, htf, hvf]
    · rw [hmt]
      exact List.sorted_insertionSort _ _
    · rw [hmv]
      exact List.sorted_insertionSort _ _
    · rw [hmt]
      exact List.perm_insertionSort _ _
    · rw [hmv]
      exact List.perm_insertionSort _ _

/-- Concrete raw directory with both split subdirectories missing. -/
def rawMissT : RawDir := ⟨none, none⟩

/-- Concrete raw directory with an empty train subdirectory. -/
def rawEmptyT : RawDir := ⟨some [], some ["2.jpg"]⟩

/-- Concrete raw directory with the val subdirectory missing. -/
def rawMissV : RawDir := ⟨some ["1.jpg"], none⟩

/-- Concrete raw directory whose val subdirectory has no matching image. -/
def rawEmptyV : RawDir := ⟨some ["1.jpg"], some ["note.txt"]⟩

/-- Witness for C7 on concrete raw directories covering all five cases. -/
theorem collect_files_spec_witness :
    collect_files "raw" rawMissT =
      .error ("Missing split directory: " ++ ("raw" ++ "/" ++ "train")) ∧
    collect_files "raw" rawEmptyT =
      .error ("No jpg files found in " ++ ("raw" ++ "/" ++ "train")) ∧
    collect_files "raw" rawMissV =
      .error ("Missing split directory: " ++ ("raw" ++ "/" ++ "val")) ∧
    collect_files "raw" rawEmptyV =
      .error ("No jpg files found in " ++ ("raw" ++ "/" ++ "val")) ∧
    (∃ tfiles vfiles,
      collect_files "raw" rawW = .ok (tfiles, vfiles) ∧
      tfiles.map pathName = sortedPaths (globJpg ["1.jpg"]) ∧
      vfiles.map pathName = sortedPaths (globJpg ["2.jpg"]) ∧
      (tfiles.map pathName).Sorted (fun a b => a ≤ b) ∧
      (vfiles.map pathName).Sorted (fun a b => a ≤ b) ∧
      List.Perm (tfiles.map pathName) (globJpg ["1.jpg"]) ∧
      List.Perm (vfiles.map pathName) (globJpg ["2.jpg"])) :=
  ⟨(collect_files_spec "raw" rawMissT).1 rfl,
   (collect_files_spec "raw" rawEmptyT).2.1 [] rfl rfl,
   (collect_files_spec "raw" rawMissV).2.2.1 ["1.jpg"] rfl (by decide) rfl,
   (collect_files_spec "raw" rawEmptyV).2.2.2.1 ["1.jpg"] ["note.txt"] rfl (by decide)
     rfl (by decide),
   (collect_files_spec "raw" rawW).2.2.2.2 ["1.jpg"] ["2.jpg"] rfl rfl (by decide)
     (by decide) (by decide) (by decide)⟩

/-- C8: the split-file payload lists exactly the discovered source filenames,
split by split, in discovery order: each split's payload is the name of each
collected path in the same order, together the payload lists are a permutation
of the matched source entries (every source filename exactly once, no
duplicates, no omissions), and `process_dataset` returns exactly the
`collect_files` mapping that the payload is built from. -/
theorem write_split_file_exact (rawPath : String) (raw : RawDir)
    (tn vn tfiles vfiles : List String)
    (htr : raw.train = some tn) (hvr : raw.val = some vn)
    (hst : ∀ n ∈ tn, ∀ c ∈ n.toList, c ≠ '/') (hsv : ∀ n ∈ vn, ∀ c ∈ n.toList, c ≠ '/')
    (hnt : tn.Nodup) (hnv : vn.Nodup)
    (hcol : collect_files rawPath raw = .ok (tfiles, vfiles)) :
    (write_split_file (tfiles, vfiles)).1 = tfiles.map pathName ∧
    (write_split_file (tfiles, vfiles)).2 = vfiles.map pathName ∧
    List.Perm (tfiles.map pathName) (globJpg tn) ∧
    List.Perm (vfiles.map pathName) (globJpg vn) ∧
    (tfiles.map pathName).Nodup ∧ (vfiles.map pathName).Nodup ∧
    (∀ (fs : FS) (outDir : String) (ow : Bool) (s : List String × List String),
      (process_dataset rawPath raw fs outDir ow).2 = .ok s → s = (tfiles, vfiles)) := by
  have hcol0 := hcol
  simp only [collect_files, htr, hvr] at hcol
  split at hcol
  · simp at hcol
  · split at hcol
    · simp at hcol
    · injection hcol with hpair
      obtain rfl : tfiles = _ := (congrArg Prod.fst hpair).symm
      obtain rfl : vfiles = _ := (congrArg Prod.snd hpair).symm
      have hmt := map_pathName_sortedPaths (rawPath ++ "/" ++ "train") (globJpg tn)
        (fun n hn => hst n (List.mem_filter.mp hn).1)
      have hmv := map_pathName_sortedPaths (rawPath ++ "/" ++ "val") (globJpg vn)
        (fun n hn => hsv n (List.mem_filter.mp hn).1)
      refine ⟨rfl, rfl, ?_, ?_, ?_, ?_, ?_⟩
      · rw [hmt]
        exact List.perm_insertionSort _ _
      · rw [hmv]
        exact List.perm_insertionSort _ _
      · rw [hmt]
        exact ((List.perm_insertionSort _ _).nodup_iff).mpr (List.Nodup.filter _ hnt)
      · rw [hmv]
        exact ((List.perm_insertionSort _ _).nodup_iff).mpr (List.Nodup.filter _ hnv)
      · intro fs outDir ow s hs
        unfold process_dataset at hs
        simp only [hcol0] at hs
        split at hs
        next fsA e hA => simp at hs
        next fsA hA =>
          split at hs
          next fsB e hB => simp at hs
          next fsB hB => simpa using hs.symm

/-- Witness for C8 on the concrete raw directory `rawW`. -/
theorem write_split_file_exact_witness :
    (write_split_file (["raw/train/1.jpg"], ["raw/val/2.jpg"])).1 =
      (["raw/train/1.jpg"] : List String).map pathName ∧
    (write_split_file (["raw/train/1.jpg"], ["raw/val/2.jpg"])).2 =
      (["raw/val/2.jpg"] : List String).map pathName ∧
    List.Perm ((["raw/train/1.jpg"] : List String).map pathName) (globJpg ["1.jpg"]) ∧
    List.Perm ((["raw/val/2.jpg"] : List String).map pathName) (globJpg ["2.jpg"]) ∧
    ((["raw/train/1.jpg"] : List String).map pathName).Nodup ∧
    ((["raw/val/2.jpg"] : List String).map pathName).Nodup ∧
    (∀ (fs : FS) (outDir : String) (ow : Bool) (s : List String × List String),
      (process_dataset "raw" rawW fs outDir ow).2 = .ok s →
      s = (["raw/train/1.jpg"], ["raw/val/2.jpg"])) :=
  write_split_file_exact "raw" rawW ["1.jpg"] ["2.jpg"]
    ["raw/train/1.jpg"] ["raw/val/2.jpg"] rfl rfl (by decide) (by decide)
    (by decide) (by decide) rfl

end I2I
